import Mathlib

/-!
Verification of the roadmap data model and operations of `allroads.py`:
the Quarter/Feature entities, the within- and cross-quarter move
operations, the feature editor dialog, quarter creation, templates, and
the JSON save/load codec.  Python lists become Lean lists; the Python
operations `list.index`, `list.remove` and `x in l` locate elements by
structural equality exactly as the dataclass-generated `__eq__` does, so
they are embedded as `List.indexOf`, `List.erase` and membership.  A
Python statement that raises an uncaught exception leaves the store in
the state reached at the raise point; every such path below mutates
nothing before raising, so it is embedded as returning the state
unchanged.
-/

/-- The `Feature` dataclass: `id`, `title`, `description`, with the
defaults `completed=False` and `color="#2196F3"`. -/
structure Feature where
  id : String
  title : String
  description : String
  completed : Bool := false
  color : String := "#2196F3"
deriving DecidableEq

/-- The `Quarter` dataclass: `year`, `quarter`, and its ordered feature
list (`__post_init__` replaces `None` by the empty list, so the list is
always present). -/
structure Quarter where
  year : Int
  quarter : Int
  features : List Feature := []
deriving DecidableEq

/-- The simultaneous tuple assignment `l[i], l[j] = l[j], l[i]` used by
`move_feature_up` / `move_feature_down`: both cells are read first, then
written.  Out-of-range indices never occur on the paths that use it. -/
def swap_adjacent {α : Type _} (l : List α) (i j : Nat) : List α :=
  match l[i]?, l[j]? with
  | some a, some b => (l.set i b).set j a
  | _, _ => l

/-- `QuarterFrame.move_to_previous_quarter`: the acting frame owns the
quarter at position `qi`; the code recomputes its index with
`self.app.quarters.index(self.quarter)` (first structurally equal
entry), and when a previous quarter exists removes the feature from the
acting quarter (`list.remove`, first occurrence; skipped when the list
is empty, aborting unchanged when the feature is absent since `remove`
raises `ValueError` before any mutation) and appends it to the previous
quarter's list. -/
def move_to_previous_quarter (quarters : List Quarter) (qi : Nat) (f : Feature) :
    List Quarter :=
  match quarters[qi]? with
  | none => quarters
  | some q =>
    let cqi := quarters.indexOf q
    if 0 < cqi then
      if q.features ≠ [] ∧ f ∉ q.features then quarters
      else
        let quarters1 := quarters.set qi { q with features := q.features.erase f }
        match quarters1[cqi - 1]? with
        | none => quarters1
        | some prev =>
          quarters1.set (cqi - 1) { prev with features := prev.features ++ [f] }
    else quarters

/-- `QuarterFrame.move_to_next_quarter`: symmetric to
`move_to_previous_quarter`, but the feature is inserted at position 0 of
the next quarter's list. -/
def move_to_next_quarter (quarters : List Quarter) (qi : Nat) (f : Feature) :
    List Quarter :=
  match quarters[qi]? with
  | none => quarters
  | some q =>
    let cqi := quarters.indexOf q
    if cqi + 1 < quarters.length then
      if q.features ≠ [] ∧ f ∉ q.features then quarters
      else
        let quarters1 := quarters.set qi { q with features := q.features.erase f }
        match quarters1[cqi + 1]? with
        | none => quarters1
        | some next =>
          quarters1.set (cqi + 1) { next with features := f :: next.features }
    else quarters

/-- `QuarterFrame.move_feature_up`: no-op on an empty list; `list.index`
raises on an absent feature (state unchanged); index `> 0` swaps with the
left neighbour, index `0` delegates to `move_to_previous_quarter`. -/
def move_feature_up (quarters : List Quarter) (qi : Nat) (f : Feature) :
    List Quarter :=
  match quarters[qi]? with
  | none => quarters
  | some q =>
    if q.features.isEmpty then quarters
    else if f ∈ q.features then
      let ci := q.features.indexOf f
      if 0 < ci then
        quarters.set qi { q with features := swap_adjacent q.features ci (ci - 1) }
      else
        move_to_previous_quarter quarters qi f
    else quarters

/-- `QuarterFrame.move_feature_down`: no-op on an empty list; index
`< len - 1` swaps with the right neighbour, the last index delegates to
`move_to_next_quarter`. -/
def move_feature_down (quarters : List Quarter) (qi : Nat) (f : Feature) :
    List Quarter :=
  match quarters[qi]? with
  | none => quarters
  | some q =>
    if q.features.isEmpty then quarters
    else if f ∈ q.features then
      let ci := q.features.indexOf f
      if ci + 1 < q.features.length then
        quarters.set qi { q with features := swap_adjacent q.features ci (ci + 1) }
      else
        move_to_next_quarter quarters qi f
    else quarters

/-- Python `str.strip()`: leading and trailing whitespace removed. -/
def strip (s : String) : String :=
  String.mk (((s.data.dropWhile Char.isWhitespace).reverse.dropWhile
    Char.isWhitespace).reverse)

/-- The dictionary `FeatureDialog.ok_clicked` builds from the entry
widgets: stripped title and description, chosen color. -/
structure DialogResult where
  title : String
  description : String
  color : String
deriving DecidableEq

/-- The observable state of a `FeatureDialog`: `self.result` (initially
`None`) and whether the window is still open. -/
structure DialogState where
  result : Option DialogResult
  isOpen : Bool
deriving DecidableEq

/-- A fresh `FeatureDialog`: `self.result = None`, window open. -/
def dialog_init : DialogState := { result := none, isOpen := true }

/-- One user interaction with the dialog: pressing OK with the current
entry contents, or pressing Cancel. -/
inductive DialogEvent where
  | ok (titleEntry descText colorVar : String)
  | cancel

/-- `ok_clicked` assigns `self.result` before validating and destroys
the window only when the stripped title is non-empty; `cancel_clicked`
destroys the window without touching `self.result`.  A destroyed window
receives no further events. -/
def dialog_step (s : DialogState) (e : DialogEvent) : DialogState :=
  if s.isOpen = false then s
  else
    match e with
    | DialogEvent.ok titleEntry descText colorVar =>
      let r : DialogResult :=
        { title := strip titleEntry, description := strip descText, color := colorVar }
      { result := some r, isOpen := if r.title = "" then true else false }
    | DialogEvent.cancel => { s with isOpen := false }

/-- The dialog state after a sequence of interactions, starting from a
fresh dialog. -/
def dialog_run (events : List DialogEvent) : DialogState :=
  events.foldl dialog_step dialog_init

/-- `QuarterFrame.add_feature` after `wait_window` returns: when
`dialog.result` is a (non-empty, hence truthy) dict, a feature with id
`feature_{len(features)}` is built from it (`completed` left at its
default) and appended to the quarter's list. -/
def add_feature (q : Quarter) (d : DialogState) : Quarter :=
  match d.result with
  | none => q
  | some r =>
    let f : Feature :=
      { id := "feature_" ++ toString q.features.length,
        title := r.title, description := r.description,
        completed := false, color := r.color }
    { q with features := q.features ++ [f] }

/-- `QuarterFrame.delete_feature`: on confirmation, the first occurrence
of the feature is removed from the owning quarter's list. -/
def delete_feature (q : Quarter) (f : Feature) (confirm : Bool) : Quarter :=
  if confirm ∧ f ∈ q.features then { q with features := q.features.erase f }
  else q

/-- `RoadmapApp.add_quarter`: appends the successor of the last quarter
(quarter 4 wraps to quarter 1 of the next year), or `(currentYear, 1)`
when the list is empty. -/
def add_quarter (quarters : List Quarter) (currentYear : Int) : List Quarter :=
  match quarters.getLast? with
  | none => quarters ++ [{ year := currentYear, quarter := 1, features := [] }]
  | some last =>
    if last.quarter = 4 then
      quarters ++ [{ year := last.year + 1, quarter := 1, features := [] }]
    else
      quarters ++ [{ year := last.year, quarter := last.quarter + 1, features := [] }]

/-- `RoadmapApp.remove_quarter`: drops the last quarter, no-op if empty. -/
def remove_quarter (quarters : List Quarter) : List Quarter :=
  quarters.dropLast

/-- `RoadmapApp.clear_all`: empties the list only when the confirmation
dialog is accepted. -/
def clear_all (quarters : List Quarter) (confirm : Bool) : List Quarter :=
  if confirm then [] else quarters

/-- A JSON value, as produced by `json.load`. -/
inductive Json where
  | jnull
  | jbool (b : Bool)
  | jint (n : Int)
  | jstr (s : String)
  | jarr (items : List Json)
  | jobj (fields : List (String × Json))

/-- Dictionary key lookup (`d[k]` / `d.get(k)`): the value of the first
matching key, if any. -/
def getField : List (String × Json) → String → Option Json
  | [], _ => none
  | (k, v) :: rest, key => if k = key then some v else getField rest key

/-- One `feature_data` record of `open_roadmap`'s inner loop: `id`,
`title`, `description` are required (`KeyError` aborts the enclosing
quarter), `completed` defaults to `False` and `color` to `"#2196F3"`.
The Python dataclass performs no runtime type validation; the embedding
requires each present field to carry the type the program itself writes
on save. -/
def parseFeature (j : Json) : Option Feature :=
  match j with
  | Json.jobj fields =>
    match getField fields "id", getField fields "title",
        getField fields "description" with
    | some (Json.jstr i), some (Json.jstr t), some (Json.jstr d) =>
      (match getField fields "completed" with
        | some (Json.jbool b) => some b
        | none => some false
        | _ => none).bind fun comp =>
      (match getField fields "color" with
        | some (Json.jstr c) => some c
        | none => some "#2196F3"
        | _ => none).bind fun col =>
      some { id := i, title := t, description := d, completed := comp, color := col }
    | _, _, _ => none
  | _ => none

/-- The features of one quarter record: all must parse for the quarter
to be built at all (a failing feature aborts the quarter before
`add_quarter_to_ui` runs). -/
def parseFeatures : List Json → Option (List Feature)
  | [] => some []
  | j :: rest =>
    match parseFeature j, parseFeatures rest with
    | some f, some fs => some (f :: fs)
    | _, _ => none

/-- One `quarter_data` record: `year` and `quarter` are required
(`KeyError` aborts this record), `features` defaults to the empty
list. -/
def parseQuarter (j : Json) : Option Quarter :=
  match j with
  | Json.jobj fields =>
    match getField fields "year", getField fields "quarter" with
    | some (Json.jint y), some (Json.jint qn) =>
      (match getField fields "features" with
        | none => some []
        | some (Json.jarr xs) => some xs
        | _ => none).bind fun xs =>
      (parseFeatures xs).bind fun fs =>
      some { year := y, quarter := qn, features := fs }
    | _, _ => none
  | _ => none

/-- `open_roadmap`'s quarter loop, started after the roadmap is cleared:
each successfully parsed quarter is appended immediately via
`add_quarter_to_ui`; the first failing record raises, leaving the
quarters accumulated so far in place and surfacing the error dialog
(the `Bool` component). -/
def loadQuartersLoop : List Json → List Quarter → List Quarter × Bool
  | [], acc => (acc, false)
  | j :: rest, acc =>
    match parseQuarter j with
    | some q => loadQuartersLoop rest (acc ++ [q])
    | none => (acc, true)

/-- `RoadmapApp.open_roadmap`: `input = none` stands for a failed file
read or a `json.load` error, caught before any mutation.  On a
successful read the roadmap is cleared unconditionally
(`clear_all` is followed by `self.quarters.clear()`), and only then are
the quarter records parsed; a non-object document or a non-array
`quarters` value raises after the clear. -/
def open_roadmap (quarters : List Quarter) (input : Option Json) :
    List Quarter × Bool :=
  match input with
  | none => (quarters, true)
  | some data =>
    match data with
    | Json.jobj fields =>
      (match getField fields "quarters" with
        | none => loadQuartersLoop [] []
        | some (Json.jarr xs) => loadQuartersLoop xs []
        | _ => ([], true))
    | _ => ([], true)

/-- The serialized form of one feature in `save_to_file`. -/
def featureToJson (f : Feature) : Json :=
  Json.jobj [("id", Json.jstr f.id), ("title", Json.jstr f.title),
    ("description", Json.jstr f.description),
    ("completed", Json.jbool f.completed), ("color", Json.jstr f.color)]

/-- The serialized form of one quarter in `save_to_file`. -/
def quarterToJson (q : Quarter) : Json :=
  Json.jobj [("year", Json.jint q.year), ("quarter", Json.jint q.quarter),
    ("features", Json.jarr (q.features.map featureToJson))]

/-- `RoadmapApp.save_to_file`: the document written to disk — the
quarters serialized in order, a fresh `created` timestamp, and the
literal version string. -/
def save_to_file (quarters : List Quarter) (created : String) : Json :=
  Json.jobj [("quarters", Json.jarr (quarters.map quarterToJson)),
    ("created", Json.jstr created), ("version", Json.jstr "2.0")]

/-- The fixed feature titles of the `web` template. -/
def webTitles : List String :=
  ["Planning & Design", "Backend Setup", "Frontend Development",
   "Authentication System", "Payment Integration", "Testing & QA", "Deployment"]

/-- The fixed feature titles of the `mobile` template. -/
def mobileTitles : List String :=
  ["UI/UX Design", "Core Architecture", "User Authentication", "Main Features",
   "Push Notifications", "App Store Submission", "Marketing Launch"]

/-- The fixed feature titles of the `api` template. -/
def apiTitles : List String :=
  ["API Specification", "Database Design", "Authentication & Auth",
   "Core Endpoints", "Documentation", "Testing Suite", "Monitoring Setup"]

/-- The `templates` dictionary of `load_template`. -/
def templates (template_type : String) : Option (List String) :=
  if template_type = "web" then some webTitles
  else if template_type = "mobile" then some mobileTitles
  else if template_type = "api" then some apiTitles
  else none

/-- The four-color palette `load_template` cycles through by quarter
index modulo 4. -/
def palette : List String := ["#4CAF50", "#2196F3", "#FF9800", "#9C27B0"]

/-- `RoadmapApp.load_template`: an unknown template name does nothing; a
non-empty roadmap first asks for confirmation (declining returns
unchanged); `clear_all` then asks its own confirmation (declining keeps
the old quarters in place, and the template quarters are appended after
them); the titles are chunked two per quarter into quarters
`(currentYear, i+1)`, each feature's description auto-generated and its
color drawn from the palette at the quarter index modulo 4. -/
def load_template (template_type : String) (quarters : List Quarter)
    (currentYear : Int) (replaceConfirm clearConfirm : Bool) : List Quarter :=
  match templates template_type with
  | none => quarters
  | some features =>
    if quarters ≠ [] ∧ replaceConfirm = false then quarters
    else
      let base := clear_all quarters clearConfirm
      let features_per_quarter := 2
      let num_quarters :=
        (features.length + features_per_quarter - 1) / features_per_quarter
      base ++ (List.range num_quarters).map (fun i =>
        { year := currentYear, quarter := (i : Int) + 1,
          features :=
            ((features.drop (i * features_per_quarter)).take
                features_per_quarter).enum.map (fun p =>
              { id := "feature_" ++ template_type ++ "_" ++ toString i ++ "_" ++
                  toString p.1,
                title := p.2,
                description := "Implementation of " ++ p.2,
                completed := false,
                color := palette.getD (i % 4) "" }) })

/-- The quarter stored at a position of the roadmap (the frames are in
one-to-one correspondence with positions). -/
def quarterAt (quarters : List Quarter) (i : Nat) : Quarter :=
  quarters.getD i { year := 0, quarter := 0, features := [] }

/-- The multiset of all features of the whole roadmap, across all
quarters. -/
def roadmapFeatures (quarters : List Quarter) : Multiset Feature :=
  ((quarters.map Quarter.features).flatten : List Feature)

lemma indexOf_le_of_getElem? {α : Type _} [DecidableEq α] :
    ∀ (l : List α) (i : Nat) (a : α), l[i]? = some a → l.indexOf a ≤ i := by
  intro l
  induction l with
  | nil => intro i a h; simp at h
  | cons b t ih =>
    intro i a h
    cases i with
    | zero =>
      simp at h
      subst h
      simp [List.indexOf_cons_self]
    | succ n =>
      simp only [List.getElem?_cons_succ] at h
      by_cases hb : b = a
      · subst hb; simp [List.indexOf_cons_self]
      · rw [List.indexOf_cons_ne _ hb]
        exact Nat.succ_le_succ (ih n a h)

lemma indexOf_decomp {α : Type _} [DecidableEq α] {f : α} :
    ∀ {l : List α}, f ∈ l →
      ∃ pre suf, l = pre ++ f :: suf ∧ f ∉ pre ∧ pre.length = l.indexOf f := by
  intro l
  induction l with
  | nil => intro h; cases h
  | cons a t ih =>
    intro h
    by_cases ha : a = f
    · subst ha
      exact ⟨[], t, rfl, by simp, by simp [List.indexOf_cons_self]⟩
    · have hmem : f ∈ t := by
        rcases List.mem_cons.mp h with h1 | h1
        · exact absurd h1.symm ha
        · exact h1
      obtain ⟨pre, suf, hdec, hnm, hlen⟩ := ih hmem
      refine ⟨a :: pre, suf, by simp [hdec], ?_, ?_⟩
      · simp only [List.mem_cons, not_or]
        exact ⟨fun hfa => ha hfa.symm, hnm⟩
      · rw [List.indexOf_cons_ne _ ha]
        simp [hlen]

lemma mtpq_shape (quarters : List Quarter) (qi : Nat) (q : Quarter) (f : Feature)
    (hq : quarters[qi]? = some q) (hidx : quarters.indexOf q = qi)
    (hmem : f ∈ q.features) (hqi : 0 < qi) :
    move_to_previous_quarter quarters qi f =
      (quarters.set qi { q with features := q.features.erase f }).set (qi - 1)
        { quarterAt quarters (qi - 1) with
          features := (quarterAt quarters (qi - 1)).features ++ [f] } := by
  have hlen : qi < quarters.length := by
    rcases List.getElem?_eq_some.mp hq with ⟨h1, _⟩
    exact h1
  have hget : (quarters.set qi { q with features := q.features.erase f })[qi - 1]? =
      some quarters[qi - 1] := by
    rw [List.getElem?_set_ne (show qi ≠ qi - 1 by omega), List.getElem?_eq_getElem (by omega)]
  have hat : quarterAt quarters (qi - 1) = quarters[qi - 1] := by
    rw [quarterAt, List.getD_eq_getElem?_getD, List.getElem?_eq_getElem (by omega)]
    rfl
  simp only [move_to_previous_quarter, hq, hidx]
  rw [if_pos hqi, if_neg (by simp [hmem]), hget, hat]

lemma set_getElem?_self {α : Type _} :
    ∀ (l : List α) (i : Nat) (a : α), l[i]? = some a → l.set i a = l := by
  intro l
  induction l with
  | nil => intro i a h; simp at h
  | cons b t ih =>
    intro i a h
    cases i with
    | zero => simp at h; simp [h]
    | succ n =>
      simp only [List.getElem?_cons_succ] at h
      simp [List.set_cons_succ, ih n a h]

lemma mtnq_shape (quarters : List Quarter) (qi : Nat) (q : Quarter) (f : Feature)
    (hq : quarters[qi]? = some q) (hidx : quarters.indexOf q = qi)
    (hmem : f ∈ q.features) (hqi : qi + 1 < quarters.length) :
    move_to_next_quarter quarters qi f =
      (quarters.set qi { q with features := q.features.erase f }).set (qi + 1)
        { quarterAt quarters (qi + 1) with
          features := f :: (quarterAt quarters (qi + 1)).features } := by
  have hget : (quarters.set qi { q with features := q.features.erase f })[qi + 1]? =
      some quarters[qi + 1] := by
    rw [List.getElem?_set_ne (show qi ≠ qi + 1 by omega), List.getElem?_eq_getElem (by omega)]
  have hat : quarterAt quarters (qi + 1) = quarters[qi + 1] := by
    rw [quarterAt, List.getD_eq_getElem?_getD, List.getElem?_eq_getElem (by omega)]
    rfl
  simp only [move_to_next_quarter, hq, hidx]
  rw [if_pos hqi, if_neg (by simp [hmem]), hget, hat]

lemma mtpq_noop (quarters : List Quarter) (qi : Nat) (q : Quarter) (f : Feature)
    (hq : quarters[qi]? = some q) (hidx : quarters.indexOf q = qi) (hqi : qi = 0) :
    move_to_previous_quarter quarters qi f = quarters := by
  simp only [move_to_previous_quarter, hq, hidx]
  rw [if_neg (by omega)]

lemma mtnq_noop (quarters : List Quarter) (qi : Nat) (q : Quarter) (f : Feature)
    (hq : quarters[qi]? = some q) (hidx : quarters.indexOf q = qi)
    (hqi : qi + 1 = quarters.length) :
    move_to_next_quarter quarters qi f = quarters := by
  simp only [move_to_next_quarter, hq, hidx]
  rw [if_neg (by omega)]

lemma swap_adjacent_succ_left {α : Type _} (l₁ l₂ : List α) (x y : α) :
    swap_adjacent (l₁ ++ x :: y :: l₂) (l₁.length + 1) l₁.length = l₁ ++ y :: x :: l₂ := by
  have h1 : (l₁ ++ x :: y :: l₂)[l₁.length + 1]? = some y := by
    rw [List.getElem?_append_right (by omega)]
    simp
  have h2 : (l₁ ++ x :: y :: l₂)[l₁.length]? = some x := by
    rw [List.getElem?_append_right (by omega)]
    simp
  simp only [swap_adjacent, h1, h2]
  rw [List.set_append, if_neg (by omega), List.set_append, if_neg (by omega)]
  simp

lemma swap_adjacent_succ_right {α : Type _} (l₁ l₂ : List α) (x y : α) :
    swap_adjacent (l₁ ++ x :: y :: l₂) l₁.length (l₁.length + 1) = l₁ ++ y :: x :: l₂ := by
  have h1 : (l₁ ++ x :: y :: l₂)[l₁.length + 1]? = some y := by
    rw [List.getElem?_append_right (by omega)]
    simp
  have h2 : (l₁ ++ x :: y :: l₂)[l₁.length]? = some x := by
    rw [List.getElem?_append_right (by omega)]
    simp
  simp only [swap_adjacent, h1, h2]
  rw [List.set_append, if_neg (by omega), List.set_append, if_neg (by omega)]
  simp

lemma indexOf_append_cons_self {α : Type _} [DecidableEq α] (l₁ l₂ : List α) (f : α)
    (hnm : f ∉ l₁) : (l₁ ++ f :: l₂).indexOf f = l₁.length := by
  rw [List.indexOf_append_of_not_mem hnm, List.indexOf_cons_self]
  omega

lemma mfu_swap (quarters : List Quarter) (qi : Nat) (q : Quarter) (f x : Feature)
    (l₁ l₂ : List Feature) (hq : quarters[qi]? = some q)
    (hfeat : q.features = l₁ ++ x :: f :: l₂) (hnm : f ∉ l₁) (hxf : x ≠ f) :
    move_feature_up quarters qi f =
      quarters.set qi { q with features := l₁ ++ f :: x :: l₂ } := by
  have hidxf : q.features.indexOf f = l₁.length + 1 := by
    rw [hfeat, List.indexOf_append_of_not_mem hnm, List.indexOf_cons_ne _ hxf,
      List.indexOf_cons_self]
  have hmem : f ∈ q.features := by simp [hfeat]
  have hne : ¬ q.features.isEmpty := by simp [hfeat]
  simp only [move_feature_up, hq]
  rw [if_neg hne, if_pos hmem, hidxf]
  rw [if_pos (by omega)]
  have : l₁.length + 1 - 1 = l₁.length := by omega
  rw [this, hfeat, swap_adjacent_succ_left]

lemma mfd_swap (quarters : List Quarter) (qi : Nat) (q : Quarter) (f y : Feature)
    (l₁ l₂ : List Feature) (hq : quarters[qi]? = some q)
    (hfeat : q.features = l₁ ++ f :: y :: l₂) (hnm : f ∉ l₁) :
    move_feature_down quarters qi f =
      quarters.set qi { q with features := l₁ ++ y :: f :: l₂ } := by
  have hidxf : q.features.indexOf f = l₁.length := by
    rw [hfeat, indexOf_append_cons_self _ _ _ hnm]
  have hmem : f ∈ q.features := by simp [hfeat]
  have hne : ¬ q.features.isEmpty := by simp [hfeat]
  have hlen : l₁.length + 1 < q.features.length := by
    rw [hfeat]
    simp only [List.length_append, List.length_cons]
    omega
  simp only [move_feature_down, hq]
  rw [if_neg hne, if_pos hmem, hidxf]
  rw [if_pos hlen, hfeat, swap_adjacent_succ_right]

lemma mfu_cross (quarters : List Quarter) (qi : Nat) (q : Quarter) (f : Feature)
    (hq : quarters[qi]? = some q) (hhead : q.features.head? = some f) :
    move_feature_up quarters qi f = move_to_previous_quarter quarters qi f := by
  have hfeat : q.features = f :: q.features.tail :=
    List.eq_cons_of_mem_head? (by rw [hhead]; rfl)
  have hmem : f ∈ q.features := by rw [hfeat]; exact List.mem_cons_self _ _
  have hne : ¬ q.features.isEmpty := by rw [hfeat]; simp
  have hidxf : q.features.indexOf f = 0 := by
    rw [hfeat, List.indexOf_cons_self]
  simp only [move_feature_up, hq]
  rw [if_neg hne, if_pos hmem, hidxf]
  rw [if_neg (by omega)]

lemma mfd_cross (quarters : List Quarter) (qi : Nat) (q : Quarter) (f : Feature)
    (hq : quarters[qi]? = some q) (hmem : f ∈ q.features)
    (hlast : q.features.indexOf f + 1 = q.features.length) :
    move_feature_down quarters qi f = move_to_next_quarter quarters qi f := by
  have hne : ¬ q.features.isEmpty := by
    cases hfeat : q.features with
    | nil => rw [hfeat] at hmem; cases hmem
    | cons a t => simp
  simp only [move_feature_down, hq]
  rw [if_neg hne, if_pos hmem]
  rw [if_neg (by omega)]

lemma roadmapFeatures_cons (q : Quarter) (qs : List Quarter) :
    roadmapFeatures (q :: qs) = ↑q.features + roadmapFeatures qs := rfl

lemma roadmapFeatures_set (qs : List Quarter) :
    ∀ (i : Nat) (q qn : Quarter), qs[i]? = some q →
      roadmapFeatures (qs.set i qn) + ↑q.features =
        roadmapFeatures qs + ↑qn.features := by
  induction qs with
  | nil => intro i q qn h; simp at h
  | cons a t ih =>
    intro i q qn h
    cases i with
    | zero =>
      simp only [List.getElem?_cons_zero, Option.some.injEq] at h
      subst h
      show roadmapFeatures (qn :: t) + _ = _
      rw [roadmapFeatures_cons, roadmapFeatures_cons]
      abel
    | succ n =>
      simp only [List.getElem?_cons_succ] at h
      show roadmapFeatures (a :: t.set n qn) + _ = _
      rw [roadmapFeatures_cons, roadmapFeatures_cons, add_assoc, add_assoc, ih n q qn h]

lemma coe_erase_add_single (l : List Feature) (f : Feature) (h : f ∈ l) :
    (l : Multiset Feature) = ↑(l.erase f) + {f} := by
  have hp : l.Perm (f :: l.erase f) := List.perm_cons_erase h
  rw [show ((l : Multiset Feature)) = ↑(f :: l.erase f) from Multiset.coe_eq_coe.mpr hp]
  rw [← Multiset.cons_coe, ← Multiset.singleton_add]
  exact add_comm _ _

lemma mcancel (A B x s : Multiset Feature) (h : A + (s + x) = B + s) : A + x = B := by
  have h2 : (A + x) + s = B + s := by
    rw [show (A + x) + s = A + (s + x) from by abel, h]
  exact add_right_cancel h2

lemma roadmapFeatures_erase_insert (qs : List Quarter) (qi cj : Nat) (q c : Quarter)
    (f : Feature) (fs : List Feature) (hq : qs[qi]? = some q) (hmem : f ∈ q.features)
    (hc : (qs.set qi { q with features := q.features.erase f })[cj]? = some c)
    (hfs : (fs : Multiset Feature) = ↑c.features + {f}) :
    roadmapFeatures ((qs.set qi { q with features := q.features.erase f }).set cj
      { c with features := fs }) = roadmapFeatures qs := by
  have e1 := roadmapFeatures_set qs qi q { q with features := q.features.erase f } hq
  have e2 := roadmapFeatures_set (qs.set qi { q with features := q.features.erase f })
    cj c { c with features := fs } hc
  have e3 := coe_erase_add_single q.features f hmem
  rw [e3] at e1
  have h1 : roadmapFeatures (qs.set qi { q with features := q.features.erase f }) + {f} =
      roadmapFeatures qs := by
    exact mcancel _ _ _ _ e1
  have e4 : roadmapFeatures ((qs.set qi { q with features := q.features.erase f }).set cj
      { c with features := fs }) + ↑c.features = roadmapFeatures qs + ↑c.features := by
    rw [e2]
    show _ + (fs : Multiset Feature) = _
    rw [hfs, show roadmapFeatures (qs.set qi { q with features := q.features.erase f }) +
      ((c.features : Multiset Feature) + {f}) =
      (roadmapFeatures (qs.set qi { q with features := q.features.erase f }) + {f}) +
        ↑c.features from by abel, h1]
  exact add_right_cancel e4

lemma roadmapFeatures_mtpq (quarters : List Quarter) (qi : Nat) (q : Quarter) (f : Feature)
    (hq : quarters[qi]? = some q) (hmem : f ∈ q.features) :
    roadmapFeatures (move_to_previous_quarter quarters qi f) = roadmapFeatures quarters := by
  have hlen : qi < quarters.length := (List.getElem?_eq_some.mp hq).1
  have hle : quarters.indexOf q ≤ qi := indexOf_le_of_getElem? quarters qi q hq
  simp only [move_to_previous_quarter, hq]
  by_cases hpos : 0 < quarters.indexOf q
  · rw [if_pos hpos, if_neg (by simp [hmem])]
    have hlt : quarters.indexOf q - 1 < quarters.length := by omega
    have hget : (quarters.set qi
        { q with features := q.features.erase f })[quarters.indexOf q - 1]? =
        some (quarters.get ⟨quarters.indexOf q - 1, hlt⟩) := by
      rw [List.getElem?_set_ne (show qi ≠ quarters.indexOf q - 1 by omega),
        List.getElem?_eq_getElem hlt]
      simp [List.get_eq_getElem]
    rw [hget]
    exact roadmapFeatures_erase_insert quarters qi _ q _ f _ hq hmem hget (by
      rw [← Multiset.coe_add]
      rfl)
  · rw [if_neg hpos]

lemma roadmapFeatures_mtnq (quarters : List Quarter) (qi : Nat) (q : Quarter) (f : Feature)
    (hq : quarters[qi]? = some q) (hmem : f ∈ q.features) :
    roadmapFeatures (move_to_next_quarter quarters qi f) = roadmapFeatures quarters := by
  have hlen : qi < quarters.length := (List.getElem?_eq_some.mp hq).1
  have hle : quarters.indexOf q ≤ qi := indexOf_le_of_getElem? quarters qi q hq
  simp only [move_to_next_quarter, hq]
  by_cases hpos : quarters.indexOf q + 1 < quarters.length
  · rw [if_pos hpos, if_neg (by simp [hmem])]
    have hlt : quarters.indexOf q + 1 <
        (quarters.set qi { q with features := q.features.erase f }).length := by
      rw [List.length_set]; omega
    have hget : (quarters.set qi
        { q with features := q.features.erase f })[quarters.indexOf q + 1]? =
        some ((quarters.set qi
          { q with features := q.features.erase f }).get
            ⟨quarters.indexOf q + 1, hlt⟩) := by
      rw [List.getElem?_eq_getElem hlt]
      simp [List.get_eq_getElem]
    rw [hget]
    exact roadmapFeatures_erase_insert quarters qi _ q _ f _ hq hmem hget (by
      rw [← Multiset.cons_coe, ← Multiset.singleton_add]
      exact add_comm _ _)
  · rw [if_neg hpos]

lemma roadmapFeatures_mfu (quarters : List Quarter) (qi : Nat) (q : Quarter) (f : Feature)
    (hq : quarters[qi]? = some q) (hmem : f ∈ q.features) :
    roadmapFeatures (move_feature_up quarters qi f) = roadmapFeatures quarters := by
  obtain ⟨pre, suf, hdec, hnm, hplen⟩ := indexOf_decomp hmem
  by_cases h0 : q.features.indexOf f = 0
  · have hpre : pre = [] := List.length_eq_zero.mp (by omega)
    subst hpre
    have hhead : q.features.head? = some f := by rw [hdec]; rfl
    rw [mfu_cross quarters qi q f hq hhead]
    exact roadmapFeatures_mtpq quarters qi q f hq hmem
  · rcases List.eq_nil_or_concat pre with hnil | ⟨l₁, x, hconcat⟩
    · rw [hnil] at hplen
      simp at hplen
      omega
    · have hxf : x ≠ f := by
        intro he
        exact hnm (by rw [hconcat, he]; simp [List.concat_eq_append])
      have hnm1 : f ∉ l₁ := fun hin =>
        hnm (by rw [hconcat]; simp [List.concat_eq_append, hin])
      have hfeat : q.features = l₁ ++ x :: f :: suf := by
        rw [hdec, hconcat]
        simp [List.concat_eq_append]
      rw [mfu_swap quarters qi q f x l₁ suf hq hfeat hnm1 hxf]
      have e1 := roadmapFeatures_set quarters qi q
        { q with features := l₁ ++ f :: x :: suf } hq
      have hperm : (q.features : Multiset Feature) = ↑(l₁ ++ f :: x :: suf) := by
        rw [hfeat]
        exact Multiset.coe_eq_coe.mpr (List.Perm.append_left l₁ (List.Perm.swap f x suf))
      rw [hperm] at e1
      exact add_right_cancel e1

lemma roadmapFeatures_mfd (quarters : List Quarter) (qi : Nat) (q : Quarter) (f : Feature)
    (hq : quarters[qi]? = some q) (hmem : f ∈ q.features) :
    roadmapFeatures (move_feature_down quarters qi f) = roadmapFeatures quarters := by
  obtain ⟨pre, suf, hdec, hnm, hplen⟩ := indexOf_decomp hmem
  by_cases hend : q.features.indexOf f + 1 = q.features.length
  · rw [mfd_cross quarters qi q f hq hmem hend]
    exact roadmapFeatures_mtnq quarters qi q f hq hmem
  · have hidxlt : q.features.indexOf f < q.features.length :=
      List.indexOf_lt_length.mpr hmem
    have hsuflen : 0 < suf.length := by
      have : q.features.length = pre.length + 1 + suf.length := by
        rw [hdec]
        simp
        omega
      omega
    cases suf with
    | nil => simp at hsuflen
    | cons y suf2 =>
      have hfeat : q.features = pre ++ f :: y :: suf2 := hdec
      rw [mfd_swap quarters qi q f y pre suf2 hq hfeat hnm]
      have e1 := roadmapFeatures_set quarters qi q
        { q with features := pre ++ y :: f :: suf2 } hq
      have hperm : (q.features : Multiset Feature) = ↑(pre ++ y :: f :: suf2) := by
        rw [hfeat]
        exact Multiset.coe_eq_coe.mpr (List.Perm.append_left pre (List.Perm.swap y f suf2))
      rw [hperm] at e1
      exact add_right_cancel e1

lemma up_down_identity (quarters : List Quarter) (qi : Nat) (q : Quarter) (f : Feature)
    (hq : quarters[qi]? = some q) (hmem : f ∈ q.features)
    (hfirst : q.features.head? ≠ some f) :
    move_feature_down (move_feature_up quarters qi f) qi f = quarters := by
  have hlen : qi < quarters.length := (List.getElem?_eq_some.mp hq).1
  obtain ⟨pre, suf, hdec, hnm, hplen⟩ := indexOf_decomp hmem
  have h0 : q.features.indexOf f ≠ 0 := by
    intro h0
    apply hfirst
    have hpre : pre = [] := List.length_eq_zero.mp (by omega)
    rw [hdec, hpre]
    rfl
  rcases List.eq_nil_or_concat pre with hnil | ⟨l₁, x, hconcat⟩
  · rw [hnil] at hplen
    simp at hplen
    omega
  · have hxf : x ≠ f := by
      intro he
      exact hnm (by rw [hconcat, he]; simp [List.concat_eq_append])
    have hnm1 : f ∉ l₁ := fun hin =>
      hnm (by rw [hconcat]; simp [List.concat_eq_append, hin])
    have hfeat : q.features = l₁ ++ x :: f :: suf := by
      rw [hdec, hconcat]
      simp [List.concat_eq_append]
    rw [mfu_swap quarters qi q f x l₁ suf hq hfeat hnm1 hxf]
    have hq1 : (quarters.set qi { q with features := l₁ ++ f :: x :: suf })[qi]? =
        some { q with features := l₁ ++ f :: x :: suf } :=
      List.getElem?_set_self hlen
    rw [mfd_swap (quarters.set qi { q with features := l₁ ++ f :: x :: suf }) qi
      { q with features := l₁ ++ f :: x :: suf } f x l₁ suf hq1 rfl hnm1]
    rw [List.set_set]
    show quarters.set qi { q with features := l₁ ++ x :: f :: suf } = quarters
    rw [← hfeat]
    exact set_getElem?_self quarters qi q hq

lemma parseFeature_featureToJson (f : Feature) : parseFeature (featureToJson f) = some f := rfl

lemma parseFeatures_map (fs : List Feature) :
    parseFeatures (fs.map featureToJson) = some fs := by
  induction fs with
  | nil => rfl
  | cons f t ih =>
    show (match parseFeature (featureToJson f), parseFeatures (t.map featureToJson) with
      | some g, some gs => some (g :: gs)
      | _, _ => none) = some (f :: t)
    rw [parseFeature_featureToJson, ih]

lemma parseQuarter_quarterToJson (q : Quarter) : parseQuarter (quarterToJson q) = some q := by
  show (parseFeatures (q.features.map featureToJson)).bind
      (fun fs => some { year := q.year, quarter := q.quarter, features := fs }) = some q
  rw [parseFeatures_map]
  rfl

lemma loadQuartersLoop_map (qs : List Quarter) :
    ∀ acc, loadQuartersLoop (qs.map quarterToJson) acc = (acc ++ qs, false) := by
  induction qs with
  | nil => intro acc; simp [loadQuartersLoop]
  | cons q t ih =>
    intro acc
    show (match parseQuarter (quarterToJson q) with
      | some q2 => loadQuartersLoop (t.map quarterToJson) (acc ++ [q2])
      | none => (acc, true)) = (acc ++ q :: t, false)
    rw [parseQuarter_quarterToJson]
    show loadQuartersLoop (List.map quarterToJson t) (acc ++ [q]) = (acc ++ q :: t, false)
    rw [ih (acc ++ [q])]
    simp

lemma load_template_web_eq (y : Int) (rc cc : Bool) :
    load_template "web" [] y rc cc =
      [{ year := y, quarter := 1, features :=
          [{ id := "feature_web_0_0", title := "Planning & Design",
             description := "Implementation of Planning & Design", completed := false,
             color := "#4CAF50" },
           { id := "feature_web_0_1", title := "Backend Setup",
             description := "Implementation of Backend Setup", completed := false,
             color := "#4CAF50" }] },
       { year := y, quarter := 2, features :=
          [{ id := "feature_web_1_0", title := "Frontend Development",
             description := "Implementation of Frontend Development", completed := false,
             color := "#2196F3" },
           { id := "feature_web_1_1", title := "Authentication System",
             description := "Implementation of Authentication System", completed := false,
             color := "#2196F3" }] },
       { year := y, quarter := 3, features :=
          [{ id := "feature_web_2_0", title := "Payment Integration",
             description := "Implementation of Payment Integration", completed := false,
             color := "#FF9800" },
           { id := "feature_web_2_1", title := "Testing & QA",
             description := "Implementation of Testing & QA", completed := false,
             color := "#FF9800" }] },
       { year := y, quarter := 4, features :=
          [{ id := "feature_web_3_0", title := "Deployment",
             description := "Implementation of Deployment", completed := false,
             color := "#9C27B0" }] }] := by
  cases rc <;> cases cc <;> rfl

/-- C7: loading the web template on an empty roadmap produces exactly 4 quarters
starting at (currentYear, 1), holding the 7 fixed titles chunked two per quarter
(the last quarter holding one), every description equal to
"Implementation of " followed by the title, and every feature of quarter index i
colored with the palette entry at i mod 4. -/
theorem C7_web_template (y : Int) (rc cc : Bool) :
    (load_template "web" [] y rc cc).length = 4 ∧
    (load_template "web" [] y rc cc).map (fun q => (q.year, q.quarter)) =
      [(y, 1), (y, 2), (y, 3), (y, 4)] ∧
    (load_template "web" [] y rc cc).map (fun q => q.features.map Feature.title) =
      [["Planning & Design", "Backend Setup"],
       ["Frontend Development", "Authentication System"],
       ["Payment Integration", "Testing & QA"], ["Deployment"]] ∧
    (∀ q ∈ load_template "web" [] y rc cc, ∀ f ∈ q.features,
      f.description = "Implementation of " ++ f.title) ∧
    (∀ i q, (load_template "web" [] y rc cc)[i]? = some q →
      ∀ f ∈ q.features, f.color = palette.getD (i % 4) "") := by
  rw [load_template_web_eq]
  refine ⟨rfl, rfl, rfl, ?_, ?_⟩
  · intro q hq
    simp only [List.mem_cons, List.not_mem_nil, or_false] at hq
    rcases hq with rfl | rfl | rfl | rfl <;> (intro f hf; fin_cases hf <;> rfl)
  · intro i q hq
    rcases i with _ | _ | _ | _ | i
    · simp only [List.getElem?_cons_zero, Option.some.injEq] at hq
      subst hq; intro f hf; fin_cases hf <;> rfl
    · simp only [List.getElem?_cons_succ, List.getElem?_cons_zero, Option.some.injEq] at hq
      subst hq; intro f hf; fin_cases hf <;> rfl
    · simp only [List.getElem?_cons_succ, List.getElem?_cons_zero, Option.some.injEq] at hq
      subst hq; intro f hf; fin_cases hf <;> rfl
    · simp only [List.getElem?_cons_succ, List.getElem?_cons_zero, Option.some.injEq] at hq
      subst hq; intro f hf; fin_cases hf <;> rfl
    · simp at hq

/-- C6: add_quarter appends the chronological successor of the last quarter
(quarter n of year y yields quarter n+1 for n in 1..3, quarter 4 of year y
yields quarter 1 of year y+1), appends (currentYear, 1) on an empty roadmap,
and the new quarter always has an empty feature list. -/
theorem C6_add_quarter_successor (quarters : List Quarter) (currentYear : Int) :
    (quarters = [] → add_quarter quarters currentYear =
      [{ year := currentYear, quarter := 1, features := [] }]) ∧
    (∀ last, quarters.getLast? = some last →
      (last.quarter = 4 → add_quarter quarters currentYear =
        quarters ++ [{ year := last.year + 1, quarter := 1, features := [] }]) ∧
      ((last.quarter = 1 ∨ last.quarter = 2 ∨ last.quarter = 3) →
        add_quarter quarters currentYear =
          quarters ++ [{ year := last.year, quarter := last.quarter + 1, features := [] }])) := by
  constructor
  · intro h
    subst h
    rfl
  · intro last hlast
    constructor
    · intro h4
      simp only [add_quarter, hlast]
      rw [if_pos h4]
    · intro h123
      simp only [add_quarter, hlast]
      rw [if_neg (by rcases h123 with h | h | h <;> omega)]

/-- C1 (amended): when the moved feature occurs exactly once at the boundary
position of its list and the acting quarter is the first occurrence of its value
in the quarters list, moving the first feature up relocates it to the end of the
immediately preceding quarter (no-op when no previous quarter exists), and
moving the last feature down relocates it to the front of the immediately
following quarter (no-op when no next quarter exists), removing it from the
source quarter and preserving the feature value with all its fields. -/
theorem C1_boundary_moves (quarters : List Quarter) (qi : Nat) (q : Quarter)
    (f : Feature) (hq : quarters[qi]? = some q) (hidx : quarters.indexOf q = qi) :
    (q.features.head? = some f →
      (qi = 0 → move_feature_up quarters qi f = quarters) ∧
      (0 < qi → move_feature_up quarters qi f =
        (quarters.set qi { q with features := q.features.tail }).set (qi - 1)
          { quarterAt quarters (qi - 1) with
            features := (quarterAt quarters (qi - 1)).features ++ [f] })) ∧
    (f ∈ q.features → q.features.indexOf f + 1 = q.features.length →
      (qi + 1 = quarters.length → move_feature_down quarters qi f = quarters) ∧
      (qi + 1 < quarters.length → move_feature_down quarters qi f =
        (quarters.set qi { q with features := q.features.erase f }).set (qi + 1)
          { quarterAt quarters (qi + 1) with
            features := f :: (quarterAt quarters (qi + 1)).features })) := by
  constructor
  · intro hhead
    have hfeat : q.features = f :: q.features.tail :=
      List.eq_cons_of_mem_head? (by rw [hhead]; rfl)
    have hmem : f ∈ q.features := by
      rw [hfeat]
      exact List.mem_cons_self _ _
    have herase : q.features.erase f = q.features.tail := by
      conv_lhs => rw [hfeat, List.erase_cons_head]
    constructor
    · intro h0
      rw [mfu_cross quarters qi q f hq hhead, mtpq_noop quarters qi q f hq hidx h0]
    · intro hpos
      rw [mfu_cross quarters qi q f hq hhead,
        mtpq_shape quarters qi q f hq hidx hmem hpos, herase]
  · intro hmem hlast
    constructor
    · intro hend
      rw [mfd_cross quarters qi q f hq hmem hlast, mtnq_noop quarters qi q f hq hidx hend]
    · intro hlt
      rw [mfd_cross quarters qi q f hq hmem hlast,
        mtnq_shape quarters qi q f hq hidx hmem hlt]

/-- C8: for a feature of the quarter at position qi that is neither the first
nor the last element of that quarter feature list, moving it up and then down
restores the roadmap, hence the quarter feature list, to exactly its original
order. -/
theorem C8_interior_up_down_identity (quarters : List Quarter) (qi : Nat) (q : Quarter)
    (f : Feature) (hq : quarters[qi]? = some q) (hmem : f ∈ q.features)
    (hfirst : q.features.head? ≠ some f) (hlast : q.features.getLast? ≠ some f) :
    move_feature_down (move_feature_up quarters qi f) qi f = quarters :=
  up_down_identity quarters qi q f hq hmem hfirst

/-- C10: each of the four move operations, applied to a feature present in its
quarter feature list, preserves the multiset of all features across all
quarters of the roadmap: nothing is lost, nothing is duplicated, and no
feature field changes. -/
theorem C10_moves_preserve_feature_multiset (quarters : List Quarter) (qi : Nat)
    (q : Quarter) (f : Feature) (hq : quarters[qi]? = some q) (hmem : f ∈ q.features) :
    roadmapFeatures (move_feature_up quarters qi f) = roadmapFeatures quarters ∧
    roadmapFeatures (move_feature_down quarters qi f) = roadmapFeatures quarters ∧
    roadmapFeatures (move_to_previous_quarter quarters qi f) = roadmapFeatures quarters ∧
    roadmapFeatures (move_to_next_quarter quarters qi f) = roadmapFeatures quarters :=
  ⟨roadmapFeatures_mfu quarters qi q f hq hmem,
   roadmapFeatures_mfd quarters qi q f hq hmem,
   roadmapFeatures_mtpq quarters qi q f hq hmem,
   roadmapFeatures_mtnq quarters qi q f hq hmem⟩

/-- C4: saving any roadmap and loading the saved document reproduces the exact
quarters and features structure (same quarter order and values, same feature
order and fields); the created timestamp is written but plays no role in the
loaded state, and the optional fields are written explicitly so nothing is
lost to defaulting. -/
theorem C4_save_load_round_trip (qs0 qs : List Quarter) (created : String) :
    open_roadmap qs0 (some (save_to_file qs created)) = (qs, false) := by
  show loadQuartersLoop (qs.map quarterToJson) [] = (qs, false)
  rw [loadQuartersLoop_map]
  simp

/-- C9: add_feature assigns the id "feature_{n}" where n is the quarter feature
count at creation time; consequently ids are not stable across deletions: the
concrete add, add, delete, add sequence below leaves one quarter holding two
distinct features that both carry the id "feature_1". -/
theorem C9_feature_id_from_count (q : Quarter) (d : DialogState) (r : DialogResult)
    (h : d.result = some r) :
    add_feature q d = { q with features := q.features ++
      [{ id := "feature_" ++ toString q.features.length, title := r.title,
         description := r.description, completed := false, color := r.color }] } ∧
    ((add_feature (delete_feature (add_feature (add_feature
        { year := 2024, quarter := 1, features := [] }
        (dialog_run [DialogEvent.ok "Login" "d1" "#111111"]))
        (dialog_run [DialogEvent.ok "Search" "d2" "#222222"]))
        { id := "feature_0", title := "Login", description := "d1",
          completed := false, color := "#111111" } true)
        (dialog_run [DialogEvent.ok "Export" "d3" "#333333"])).features.map Feature.id =
      ["feature_1", "feature_1"] ∧
     (add_feature (delete_feature (add_feature (add_feature
        { year := 2024, quarter := 1, features := [] }
        (dialog_run [DialogEvent.ok "Login" "d1" "#111111"]))
        (dialog_run [DialogEvent.ok "Search" "d2" "#222222"]))
        { id := "feature_0", title := "Login", description := "d1",
          completed := false, color := "#111111" } true)
        (dialog_run [DialogEvent.ok "Export" "d3" "#333333"])).features.Nodup) := by
  constructor
  · simp only [add_feature, h]
  · decide

/-- C2 (code bug evaluation): an open that fails before reading the document
(file error or malformed JSON, input none) leaves the roadmap unchanged, but an
open of a document whose second quarter record is missing the required "year"
field clears the roadmap and leaves only the first parsed quarter in place,
which differs from the prior roadmap, contradicting the claim that the roadmap
is unchanged on every open failure. -/
theorem C2_open_failure_leaves_partial_roadmap :
    open_roadmap [⟨2030, 3, [⟨"feature_0", "Legacy", "old work", false, "#123456"⟩]⟩]
      none = ([⟨2030, 3, [⟨"feature_0", "Legacy", "old work", false, "#123456"⟩]⟩], true) ∧
    open_roadmap [⟨2030, 3, [⟨"feature_0", "Legacy", "old work", false, "#123456"⟩]⟩]
      (some (Json.jobj [("quarters", Json.jarr
        [Json.jobj [("year", Json.jint 2024), ("quarter", Json.jint 1)],
         Json.jobj [("quarter", Json.jint 2)]]),
        ("version", Json.jstr "2.0")])) = ([⟨2024, 1, []⟩], true) ∧
    ([⟨2024, 1, []⟩] : List Quarter) ≠
      [⟨2030, 3, [⟨"feature_0", "Legacy", "old work", false, "#123456"⟩]⟩] := by
  refine ⟨rfl, ?_, by decide⟩
  decide

/-- C5 (code bug evaluation): loading applies the documented defaults for
absent optional feature fields (completed false, color "#2196F3"), but a
document whose second quarter holds a feature record missing the required
"title" field fails the load while leaving the first parsed quarter in the
roadmap, contradicting the claim that no subset of the document quarters ends
up in memory on failure. -/
theorem C5_load_defaults_and_partial_recovery :
    open_roadmap [⟨2031, 1, [⟨"feature_0", "Old", "o", true, "#654321"⟩]⟩]
      (some (Json.jobj [("quarters", Json.jarr
        [Json.jobj [("year", Json.jint 2024), ("quarter", Json.jint 1),
          ("features", Json.jarr [Json.jobj [("id", Json.jstr "feature_0"),
            ("title", Json.jstr "Login"), ("description", Json.jstr "auth")]])]])])) =
      ([⟨2024, 1, [⟨"feature_0", "Login", "auth", false, "#2196F3"⟩]⟩], false) ∧
    open_roadmap [⟨2031, 1, [⟨"feature_0", "Old", "o", true, "#654321"⟩]⟩]
      (some (Json.jobj [("quarters", Json.jarr
        [Json.jobj [("year", Json.jint 2024), ("quarter", Json.jint 1)],
         Json.jobj [("year", Json.jint 2024), ("quarter", Json.jint 2),
          ("features", Json.jarr [Json.jobj [("id", Json.jstr "feature_0"),
            ("description", Json.jstr "title is missing")]])]]) ])) =
      ([⟨2024, 1, []⟩], true) := by
  constructor
  · decide
  · decide

/-- C3 (code bug evaluation): pressing OK with a whitespace-only title keeps
the dialog open but already assigns its result, so a following Cancel closes
the dialog and add_feature stores a feature whose title is the empty string,
contradicting the claim that a blank title can never reach the store. -/
theorem C3_blank_title_reaches_store :
    (dialog_run [DialogEvent.ok "  " "some work" "#2196F3",
        DialogEvent.cancel]).isOpen = false ∧
    (add_feature { year := 2024, quarter := 1, features := [] }
      (dialog_run [DialogEvent.ok "  " "some work" "#2196F3",
        DialogEvent.cancel])).features =
      [{ id := "feature_0", title := "", description := "some work",
         completed := false, color := "#2196F3" }] ∧
    strip "  " = "" := by
  refine ⟨rfl, ?_, rfl⟩
  decide

/-- C1 counterexample: a feature value that is the last element of its quarter
list but also occurs earlier is not relocated by move_feature_down (the code
locates the feature by first occurrence and swaps in place), and the first
feature of a quarter whose value duplicates an earlier quarter is not relocated
by move_feature_up (the code locates the quarter by first occurrence), both
contradicting the claim as stated. -/
theorem C1_counterexample :
    (([⟨2024, 1, [⟨"feature_1", "B", "d", false, "#111111"⟩,
        ⟨"feature_1", "B", "d", false, "#111111"⟩]⟩,
       ⟨2024, 2, []⟩] : List Quarter).getD 0 ⟨0, 0, []⟩).features.getLast? =
      some ⟨"feature_1", "B", "d", false, "#111111"⟩ ∧
    move_feature_down [⟨2024, 1, [⟨"feature_1", "B", "d", false, "#111111"⟩,
        ⟨"feature_1", "B", "d", false, "#111111"⟩]⟩, ⟨2024, 2, []⟩] 0
      ⟨"feature_1", "B", "d", false, "#111111"⟩ =
      [⟨2024, 1, [⟨"feature_1", "B", "d", false, "#111111"⟩,
        ⟨"feature_1", "B", "d", false, "#111111"⟩]⟩, ⟨2024, 2, []⟩] ∧
    ([⟨2024, 1, [⟨"feature_1", "B", "d", false, "#111111"⟩,
        ⟨"feature_1", "B", "d", false, "#111111"⟩]⟩, ⟨2024, 2, []⟩] : List Quarter) ≠
      [⟨2024, 1, [⟨"feature_1", "B", "d", false, "#111111"⟩]⟩,
       ⟨2024, 2, [⟨"feature_1", "B", "d", false, "#111111"⟩]⟩] ∧
    (⟨2024, 1, [⟨"a", "b", "c", false, "#111111"⟩]⟩ : Quarter).features.head? =
      some ⟨"a", "b", "c", false, "#111111"⟩ ∧
    move_feature_up [⟨2024, 1, [⟨"a", "b", "c", false, "#111111"⟩]⟩,
        ⟨2024, 1, [⟨"a", "b", "c", false, "#111111"⟩]⟩] 1
      ⟨"a", "b", "c", false, "#111111"⟩ =
      [⟨2024, 1, [⟨"a", "b", "c", false, "#111111"⟩]⟩,
       ⟨2024, 1, [⟨"a", "b", "c", false, "#111111"⟩]⟩] := by
  refine ⟨rfl, by decide, by decide, rfl, by decide⟩

/-- C1 witness: the amended boundary-move theorem applied to a concrete
three-quarter roadmap. -/
theorem C1_boundary_moves_witness :
    ([⟨2024, 1, [⟨"feature_0", "Auth", "a", false, "#BBBBBB"⟩]⟩,
      ⟨2024, 2, [⟨"feature_0", "Payments", "p", false, "#AAAAAA"⟩]⟩,
      ⟨2024, 3, [⟨"feature_0", "Search", "s", false, "#CCCCCC"⟩]⟩] :
        List Quarter)[1]? = some ⟨2024, 2, [⟨"feature_0", "Payments", "p", false, "#AAAAAA"⟩]⟩ ∧
    ([⟨2024, 1, [⟨"feature_0", "Auth", "a", false, "#BBBBBB"⟩]⟩,
      ⟨2024, 2, [⟨"feature_0", "Payments", "p", false, "#AAAAAA"⟩]⟩,
      ⟨2024, 3, [⟨"feature_0", "Search", "s", false, "#CCCCCC"⟩]⟩] : List Quarter).indexOf
      ⟨2024, 2, [⟨"feature_0", "Payments", "p", false, "#AAAAAA"⟩]⟩ = 1 ∧
    move_feature_up [⟨2024, 1, [⟨"feature_0", "Auth", "a", false, "#BBBBBB"⟩]⟩,
      ⟨2024, 2, [⟨"feature_0", "Payments", "p", false, "#AAAAAA"⟩]⟩,
      ⟨2024, 3, [⟨"feature_0", "Search", "s", false, "#CCCCCC"⟩]⟩] 1
      ⟨"feature_0", "Payments", "p", false, "#AAAAAA"⟩ =
      [⟨2024, 1, [⟨"feature_0", "Auth", "a", false, "#BBBBBB"⟩,
        ⟨"feature_0", "Payments", "p", false, "#AAAAAA"⟩]⟩,
       ⟨2024, 2, []⟩,
       ⟨2024, 3, [⟨"feature_0", "Search", "s", false, "#CCCCCC"⟩]⟩] ∧
    move_feature_down [⟨2024, 1, [⟨"feature_0", "Auth", "a", false, "#BBBBBB"⟩]⟩,
      ⟨2024, 2, [⟨"feature_0", "Payments", "p", false, "#AAAAAA"⟩]⟩,
      ⟨2024, 3, [⟨"feature_0", "Search", "s", false, "#CCCCCC"⟩]⟩] 1
      ⟨"feature_0", "Payments", "p", false, "#AAAAAA"⟩ =
      [⟨2024, 1, [⟨"feature_0", "Auth", "a", false, "#BBBBBB"⟩]⟩,
       ⟨2024, 2, []⟩,
       ⟨2024, 3, [⟨"feature_0", "Payments", "p", false, "#AAAAAA"⟩,
        ⟨"feature_0", "Search", "s", false, "#CCCCCC"⟩]⟩] := by
  have H := C1_boundary_moves
    [⟨2024, 1, [⟨"feature_0", "Auth", "a", false, "#BBBBBB"⟩]⟩,
     ⟨2024, 2, [⟨"feature_0", "Payments", "p", false, "#AAAAAA"⟩]⟩,
     ⟨2024, 3, [⟨"feature_0", "Search", "s", false, "#CCCCCC"⟩]⟩] 1
    ⟨2024, 2, [⟨"feature_0", "Payments", "p", false, "#AAAAAA"⟩]⟩
    ⟨"feature_0", "Payments", "p", false, "#AAAAAA"⟩ (by decide) (by decide)
  exact ⟨by decide, by decide,
    ((H.1 (by decide)).2 (by decide)).trans (by decide),
    ((H.2 (by decide) (by decide)).2 (by decide)).trans (by decide)⟩

/-- C8 witness: the up-then-down identity applied to the middle feature of a
concrete three-feature quarter. -/
theorem C8_interior_up_down_identity_witness :
    (⟨"feature_1", "Search", "s", false, "#22AA22"⟩ : Feature) ∈
      (⟨2024, 1, [⟨"feature_0", "Auth", "a", false, "#11AA11"⟩,
        ⟨"feature_1", "Search", "s", false, "#22AA22"⟩,
        ⟨"feature_2", "Export", "e", false, "#33AA33"⟩]⟩ : Quarter).features ∧
    move_feature_down (move_feature_up
      [⟨2024, 1, [⟨"feature_0", "Auth", "a", false, "#11AA11"⟩,
        ⟨"feature_1", "Search", "s", false, "#22AA22"⟩,
        ⟨"feature_2", "Export", "e", false, "#33AA33"⟩]⟩] 0
      ⟨"feature_1", "Search", "s", false, "#22AA22"⟩) 0
      ⟨"feature_1", "Search", "s", false, "#22AA22"⟩ =
      [⟨2024, 1, [⟨"feature_0", "Auth", "a", false, "#11AA11"⟩,
        ⟨"feature_1", "Search", "s", false, "#22AA22"⟩,
        ⟨"feature_2", "Export", "e", false, "#33AA33"⟩]⟩] :=
  ⟨by decide, C8_interior_up_down_identity
    [⟨2024, 1, [⟨"feature_0", "Auth", "a", false, "#11AA11"⟩,
      ⟨"feature_1", "Search", "s", false, "#22AA22"⟩,
      ⟨"feature_2", "Export", "e", false, "#33AA33"⟩]⟩] 0
    ⟨2024, 1, [⟨"feature_0", "Auth", "a", false, "#11AA11"⟩,
      ⟨"feature_1", "Search", "s", false, "#22AA22"⟩,
      ⟨"feature_2", "Export", "e", false, "#33AA33"⟩]⟩
    ⟨"feature_1", "Search", "s", false, "#22AA22"⟩
    (by decide) (by decide) (by decide) (by decide)⟩

/-- C9 witness: the id formula applied to a concrete quarter holding one
feature, yielding the id "feature_1". -/
theorem C9_feature_id_from_count_witness :
    (dialog_run [DialogEvent.ok "New" "nd" "#ABCDEF"]).result =
      some ⟨"New", "nd", "#ABCDEF"⟩ ∧
    add_feature ⟨2025, 2, [⟨"feature_0", "T", "D", true, "#000000"⟩]⟩
      (dialog_run [DialogEvent.ok "New" "nd" "#ABCDEF"]) =
      ⟨2025, 2, [⟨"feature_0", "T", "D", true, "#000000"⟩,
        ⟨"feature_1", "New", "nd", false, "#ABCDEF"⟩]⟩ :=
  ⟨by decide,
   ((C9_feature_id_from_count ⟨2025, 2, [⟨"feature_0", "T", "D", true, "#000000"⟩]⟩
      (dialog_run [DialogEvent.ok "New" "nd" "#ABCDEF"])
      ⟨"New", "nd", "#ABCDEF"⟩ (by decide)).1).trans (by decide)⟩

/-- C10 witness: the multiset preservation applied to a concrete three-quarter
roadmap at a concrete feature. -/
theorem C10_moves_preserve_feature_multiset_witness :
    ([⟨2024, 1, [⟨"feature_0", "Auth", "a", false, "#101010"⟩]⟩,
      ⟨2024, 2, [⟨"feature_0", "Pay", "p", false, "#202020"⟩,
        ⟨"feature_1", "Ship", "s", false, "#303030"⟩]⟩,
      ⟨2024, 3, []⟩] : List Quarter)[1]? =
      some ⟨2024, 2, [⟨"feature_0", "Pay", "p", false, "#202020"⟩,
        ⟨"feature_1", "Ship", "s", false, "#303030"⟩]⟩ ∧
    roadmapFeatures (move_feature_up
      [⟨2024, 1, [⟨"feature_0", "Auth", "a", false, "#101010"⟩]⟩,
       ⟨2024, 2, [⟨"feature_0", "Pay", "p", false, "#202020"⟩,
        ⟨"feature_1", "Ship", "s", false, "#303030"⟩]⟩,
       ⟨2024, 3, []⟩] 1 ⟨"feature_0", "Pay", "p", false, "#202020"⟩) =
      roadmapFeatures
      [⟨2024, 1, [⟨"feature_0", "Auth", "a", false, "#101010"⟩]⟩,
       ⟨2024, 2, [⟨"feature_0", "Pay", "p", false, "#202020"⟩,
        ⟨"feature_1", "Ship", "s", false, "#303030"⟩]⟩,
       ⟨2024, 3, []⟩] ∧
    roadmapFeatures (move_feature_down
      [⟨2024, 1, [⟨"feature_0", "Auth", "a", false, "#101010"⟩]⟩,
       ⟨2024, 2, [⟨"feature_0", "Pay", "p", false, "#202020"⟩,
        ⟨"feature_1", "Ship", "s", false, "#303030"⟩]⟩,
       ⟨2024, 3, []⟩] 1 ⟨"feature_0", "Pay", "p", false, "#202020"⟩) =
      roadmapFeatures
      [⟨2024, 1, [⟨"feature_0", "Auth", "a", false, "#101010"⟩]⟩,
       ⟨2024, 2, [⟨"feature_0", "Pay", "p", false, "#202020"⟩,
        ⟨"feature_1", "Ship", "s", false, "#303030"⟩]⟩,
       ⟨2024, 3, []⟩] ∧
    roadmapFeatures (move_to_previous_quarter
      [⟨2024, 1, [⟨"feature_0", "Auth", "a", false, "#101010"⟩]⟩,
       ⟨2024, 2, [⟨"feature_0", "Pay", "p", false, "#202020"⟩,
        ⟨"feature_1", "Ship", "s", false, "#303030"⟩]⟩,
       ⟨2024, 3, []⟩] 1 ⟨"feature_0", "Pay", "p", false, "#202020"⟩) =
      roadmapFeatures
      [⟨2024, 1, [⟨"feature_0", "Auth", "a", false, "#101010"⟩]⟩,
       ⟨2024, 2, [⟨"feature_0", "Pay", "p", false, "#202020"⟩,
        ⟨"feature_1", "Ship", "s", false, "#303030"⟩]⟩,
       ⟨2024, 3, []⟩] ∧
    roadmapFeatures (move_to_next_quarter
      [⟨2024, 1, [⟨"feature_0", "Auth", "a", false, "#101010"⟩]⟩,
       ⟨2024, 2, [⟨"feature_0", "Pay", "p", false, "#202020"⟩,
        ⟨"feature_1", "Ship", "s", false, "#303030"⟩]⟩,
       ⟨2024, 3, []⟩] 1 ⟨"feature_0", "Pay", "p", false, "#202020"⟩) =
      roadmapFeatures
      [⟨2024, 1, [⟨"feature_0", "Auth", "a", false, "#101010"⟩]⟩,
       ⟨2024, 2, [⟨"feature_0", "Pay", "p", false, "#202020"⟩,
        ⟨"feature_1", "Ship", "s", false, "#303030"⟩]⟩,
       ⟨2024, 3, []⟩] := by
  have H := C10_moves_preserve_feature_multiset
    [⟨2024, 1, [⟨"feature_0", "Auth", "a", false, "#101010"⟩]⟩,
     ⟨2024, 2, [⟨"feature_0", "Pay", "p", false, "#202020"⟩,
      ⟨"feature_1", "Ship", "s", false, "#303030"⟩]⟩,
     ⟨2024, 3, []⟩] 1
    ⟨2024, 2, [⟨"feature_0", "Pay", "p", false, "#202020"⟩,
      ⟨"feature_1", "Ship", "s", false, "#303030"⟩]⟩
    ⟨"feature_0", "Pay", "p", false, "#202020"⟩ (by decide) (by decide)
  exact ⟨by decide, H.1, H.2.1, H.2.2.1, H.2.2.2⟩
